import Mathlib

/-
  Shallow embedding of the core of term-ascii-diagram
  (src/term_ascii_diagram/core.py and src/term_ascii_diagram/diagram.py):
  geometry primitives, the shape model (Box / Line), the drawing algorithm
  over a character-grid canvas, serialization, and the editor controller.

  Conventions:
  * Python ints are modelled as Lean Int (exact integer arithmetic, no
    overflow in the source domain).
  * The curses window is modelled as a Canvas structure holding the screen
    bounds and a total grid function; curses' silent out-of-bounds addch
    failure is modelled by a bounds guard in put_ch.
  * Fallible Python code (exceptions such as KeyError on dict access,
    ValueError on diagonal strokes) is modelled with Option.
  * Mutation is modelled by explicit state passing.
-/

namespace TAD

/-- Size dataclass from core.py: a signed extent {w, h}. -/
structure Size where
  w : Int
  h : Int
deriving DecidableEq

/-- Point dataclass from core.py: a grid coordinate {x, y}. -/
structure Point where
  x : Int
  y : Int
deriving DecidableEq

/-- Size.__add__: component-wise addition. -/
def Size.add (a b : Size) : Size := ⟨a.w + b.w, a.h + b.h⟩

/-- Point.__add__(Size): Point(x + w, y + h). -/
def Point.addSize (p : Point) (s : Size) : Point := ⟨p.x + s.w, p.y + s.h⟩

/-- Point.__sub__(Size) branch: Point(x - w, y - h). -/
def Point.subSize (p : Point) (s : Size) : Point := ⟨p.x - s.w, p.y - s.h⟩

/-- Point.__sub__(Point) branch. Note the source computes
Size(other.x - self.x, other.y - self.y): the OTHER operand minus SELF,
so p.subPoint q = Size(q - p) component-wise. -/
def Point.subPoint (p q : Point) : Size := ⟨q.x - p.x, q.y - p.y⟩

/-- Point.is_within(top_left, bottom_right): inclusive bounds test taking
the two corner arguments as given (the source performs no reordering). -/
def Point.is_within (p top_left bottom_right : Point) : Bool :=
  (decide (top_left.x ≤ p.x) && decide (p.x ≤ bottom_right.x))
    && (decide (top_left.y ≤ p.y) && decide (p.y ≤ bottom_right.y))

/-- Ascii.H_LINE glyph. -/
def Ascii.H_LINE : Char := '─'

/-- Ascii.V_LINE glyph. -/
def Ascii.V_LINE : Char := '│'

/-- Ascii.TL_CORNER glyph. -/
def Ascii.TL_CORNER : Char := '┌'

/-- Ascii.TR_CORNER glyph. -/
def Ascii.TR_CORNER : Char := '┐'

/-- Ascii.BL_CORNER glyph. -/
def Ascii.BL_CORNER : Char := '└'

/-- Ascii.BR_CORNER glyph. -/
def Ascii.BR_CORNER : Char := '┘'

/-- Ascii.ARROW_RIGHT glyph. -/
def Ascii.ARROW_RIGHT : Char := '⏵'

/-- Ascii.ARROW_LEFT glyph. -/
def Ascii.ARROW_LEFT : Char := '⏴'

/-- Ascii.ARROW_UP glyph. -/
def Ascii.ARROW_UP : Char := '⏶'

/-- Ascii.ARROW_DOWN glyph. -/
def Ascii.ARROW_DOWN : Char := '⏷'

/-- CursorMode enum from core.py. -/
inductive CursorMode where
  | HAND
  | MOVE
deriving DecidableEq

/-- The curses window behind Canvas, modelled as screen bounds plus a total
grid of characters. -/
structure Canvas where
  maxx : Int
  maxy : Int
  grid : Point → Char

/-- Point p lies inside the screen bounds of canvas c. -/
def Canvas.inBnds (c : Canvas) (p : Point) : Prop :=
  0 ≤ p.x ∧ p.x < c.maxx ∧ 0 ≤ p.y ∧ p.y < c.maxy

instance (c : Canvas) (p : Point) : Decidable (c.inBnds p) := by
  unfold Canvas.inBnds; infer_instance

/-- Canvas.put_ch: writes one character; curses raises (and put_ch swallows)
an error outside the window, so out-of-bounds writes are no-ops. -/
def Canvas.put_ch (c : Canvas) (p : Point) (ch : Char) : Canvas :=
  if c.inBnds p then
    { c with grid := fun q => if q = p then ch else c.grid q }
  else c

/-- The inclusive integer range a..b as a list (empty when b < a). -/
def intRange (a b : Int) : List Int :=
  (List.range (b + 1 - a).toNat).map (fun (i : Nat) => a + (i : Int))

/-- One row of Canvas.fill: put ch at (x, y) for each x in xs. -/
def Canvas.putRow (c : Canvas) (y : Int) (ch : Char) (xs : List Int) : Canvas :=
  xs.foldl (fun c x => c.put_ch ⟨x, y⟩ ch) c

/-- The nested loops of Canvas.fill: rows ys, columns xs. -/
def Canvas.putRect (c : Canvas) (ch : Char) (xs ys : List Int) : Canvas :=
  ys.foldl (fun c y => c.putRow y ch xs) c

/-- Canvas.fill(start, end, ch): fills the rectangle between the two corners
inclusively. The source swaps (sx, ex) when sx > ex and likewise for y,
which is exactly min/max of the two corner coordinates. -/
def Canvas.fill (c : Canvas) (start stop : Point) (ch : Char) : Canvas :=
  c.putRect ch (intRange (min start.x stop.x) (max start.x stop.x))
    (intRange (min start.y stop.y) (max start.y stop.y))

/-- Canvas.put_str: writes a string starting at point, only when the start
point is inside the bounds (the source checks the start point only; the
individual characters are written through the same grid). -/
def Canvas.put_str (c : Canvas) (p : Point) (text : String) : Canvas :=
  if c.inBnds p then
    (text.data.enum).foldl
      (fun c pr => c.put_ch ⟨p.x + (pr.1 : Int), p.y⟩ pr.2) c
  else c

/-- Python list slicing xs[:n]: take n from the front when n is
non-negative, drop the last |n| elements when n is negative. -/
def pyTake {α : Type} (xs : List α) (n : Int) : List α :=
  if 0 ≤ n then xs.take n.toNat else xs.take ((xs.length : Int) + n).toNat

/-- Python string slicing text[:n]. -/
def pyStrTake (text : String) (n : Int) : String :=
  ⟨pyTake text.data n⟩

/-- Python text.split("\n") over the character list: splitting the empty
string yields one empty piece. -/
def splitNlChars : List Char → List String
  | [] => [""]
  | c :: cs =>
    let rest := splitNlChars cs
    if c = '\n' then "" :: rest
    else
      match rest with
      | r :: rs => String.mk (c :: r.data) :: rs
      | [] => [String.mk [c]]

/-- Python text.split("\n"). -/
def pySplitNl (text : String) : List String :=
  splitNlChars text.data

/-- Python text.strip(): drop leading and trailing whitespace. -/
def pyStrip (text : String) : String :=
  ⟨((text.data.dropWhile Char.isWhitespace).reverse.dropWhile
      Char.isWhitespace).reverse⟩

/-- The DiagramObject base data: position plus (possibly negative) size.
The Python class hierarchy is flattened: Box and Line each carry these two
fields and view them through geom below. -/
structure DiagramObject where
  position : Point
  size : Size
deriving DecidableEq

/-- Python abs for Int. -/
def intAbs (n : Int) : Int := if n < 0 then -n else n

/-- DiagramObject.normalized_position: position shifted by each negative
size component. -/
def DiagramObject.normalized_position (o : DiagramObject) : Point :=
  ⟨o.position.x + (if o.size.w < 0 then o.size.w else 0),
   o.position.y + (if o.size.h < 0 then o.size.h else 0)⟩

/-- DiagramObject.normalized_size: component-wise absolute value. -/
def DiagramObject.normalized_size (o : DiagramObject) : Size :=
  ⟨intAbs o.size.w, intAbs o.size.h⟩

/-- DiagramObject.top_left property. -/
def DiagramObject.top_left (o : DiagramObject) : Point := o.position

/-- DiagramObject.normalized_top_left property. -/
def DiagramObject.normalized_top_left (o : DiagramObject) : Point :=
  o.normalized_position

/-- DiagramObject.top_right property. -/
def DiagramObject.top_right (o : DiagramObject) : Point :=
  ⟨o.position.x + o.size.w, o.position.y⟩

/-- DiagramObject.normalized_top_right property. -/
def DiagramObject.normalized_top_right (o : DiagramObject) : Point :=
  ⟨o.normalized_position.x + o.normalized_size.w, o.normalized_position.y⟩

/-- DiagramObject.bottom_left property. -/
def DiagramObject.bottom_left (o : DiagramObject) : Point :=
  ⟨o.position.x, o.position.y + o.size.h⟩

/-- DiagramObject.normalized_bottom_left property. -/
def DiagramObject.normalized_bottom_left (o : DiagramObject) : Point :=
  ⟨o.normalized_position.x, o.normalized_position.y + o.normalized_size.h⟩

/-- DiagramObject.bottom_right property: position + size. -/
def DiagramObject.bottom_right (o : DiagramObject) : Point :=
  o.position.addSize o.size

/-- DiagramObject.normalized_bottom_right property. -/
def DiagramObject.normalized_bottom_right (o : DiagramObject) : Point :=
  o.normalized_position.addSize o.normalized_size

/-- Box from diagram.py: a DiagramObject plus text and show_border. -/
structure Box where
  position : Point
  size : Size
  text : String
  show_border : Bool
deriving DecidableEq

/-- The DiagramObject view of a Box. -/
def Box.geom (b : Box) : DiagramObject := ⟨b.position, b.size⟩

/-- Line.Orientation.HORIZONTAL (IntEnum value 1). -/
def HORIZONTAL : Int := 1

/-- Line.Orientation.VERTICAL (IntEnum value 2). -/
def VERTICAL : Int := 2

/-- Line from diagram.py: a DiagramObject plus orientation and is_arrow.
The orientation field holds the raw IntEnum value (1 or 2), matching the
source, whose deserializer stores the raw int from the record. -/
structure Line where
  position : Point
  size : Size
  orientation : Int
  is_arrow : Bool
deriving DecidableEq

/-- The DiagramObject view of a Line. -/
def Line.geom (l : Line) : DiagramObject := ⟨l.position, l.size⟩

/-- Line.degree_to_ch: the class-level dict mapping an angle in degrees to
an arrow glyph; a missed lookup is a Python KeyError, modelled as none. -/
def Line.degree_to_ch (d : Int) : Option Char :=
  if d = 0 then some Ascii.ARROW_DOWN
  else if d = 180 then some Ascii.ARROW_UP
  else if d = 90 then some Ascii.ARROW_RIGHT
  else if d = -90 then some Ascii.ARROW_LEFT
  else none

/-- The value of int(math.atan2(w, h) / math.pi * 180) for axis-aligned
inputs (one of w, h zero, the other not). Line._draw_line rejects diagonal
strokes before this is evaluated and returns early on the degenerate
stroke, so only the axis-aligned cases are reachable; the final branch is
a dead placeholder for the unreachable diagonal inputs. -/
def atan2deg (w h : Int) : Int :=
  if w = 0 then (if 0 ≤ h then 0 else 180)
  else if h = 0 then (if 0 < w then 90 else -90)
  else 45

/-- Line._get_corner_ch: the 4-way corner table keyed by
(x_forward, y_downwards), one table per orientation. -/
def Line.get_corner_ch (l : Line) (start stop : Point) : Char :=
  let x_forward := decide (start.x ≤ stop.x)
  let y_downwards := decide (start.y ≤ stop.y)
  if l.orientation = HORIZONTAL then
    match x_forward, y_downwards with
    | true, true => Ascii.TR_CORNER
    | true, false => Ascii.BR_CORNER
    | false, true => Ascii.TL_CORNER
    | false, false => Ascii.BL_CORNER
  else
    match x_forward, y_downwards with
    | true, true => Ascii.BL_CORNER
    | true, false => Ascii.TL_CORNER
    | false, true => Ascii.BR_CORNER
    | false, false => Ascii.TR_CORNER

/-- Line._draw_line: strokes one axis-aligned leg (the Python parameter
named end is called stop here, end being a Lean keyword). A diagonal
request raises ValueError (none); a degenerate leg draws nothing. For an
arrow, delta = start - end under the source's reversed Point subtraction,
i.e. the Size(end - start) vector, and the dict lookup of the truncated
angle picks the glyph written over the endpoint. -/
def Line.draw_line (l : Line) (canvas : Canvas) (start stop : Point) :
    Option Canvas :=
  if start.x ≠ stop.x ∧ start.y ≠ stop.y then none
  else if start = stop then some canvas
  else
    let direction := if start.x = stop.x then Ascii.V_LINE else Ascii.H_LINE
    let c := canvas.fill start stop direction
    if l.is_arrow then
      let delta := Point.subPoint start stop
      let degree := atan2deg delta.w delta.h
      match Line.degree_to_ch degree with
      | some arrow_end_ch => some (c.put_ch stop arrow_end_ch)
      | none => none
    else some c

/-- Line._draw_horizontal. -/
def Line.draw_horizontal (l : Line) (canvas : Canvas) : Option Canvas :=
  let g := l.geom
  if g.top_left.y = g.bottom_right.y then
    l.draw_line canvas g.top_left g.top_right
  else
    let c := canvas.fill g.top_left g.top_right Ascii.H_LINE
    match l.draw_line c g.top_right g.bottom_right with
    | none => none
    | some c =>
      if g.top_left.x ≠ g.bottom_right.x then
        some (c.put_ch g.top_right (l.get_corner_ch g.top_left g.bottom_right))
      else some c

/-- Line._draw_vertical. -/
def Line.draw_vertical (l : Line) (canvas : Canvas) : Option Canvas :=
  let g := l.geom
  if g.top_left.x = g.bottom_right.x then
    l.draw_line canvas g.top_left g.bottom_left
  else
    let c := canvas.fill g.top_left g.bottom_left Ascii.V_LINE
    match l.draw_line c g.bottom_left g.bottom_right with
    | none => none
    | some c =>
      if g.top_left.y ≠ g.bottom_right.y then
        some (c.put_ch g.bottom_left (l.get_corner_ch g.top_left g.bottom_right))
      else some c

/-- Line.draw: dispatch on the starting orientation. -/
def Line.draw (l : Line) (canvas : Canvas) : Option Canvas :=
  if l.orientation = HORIZONTAL then l.draw_horizontal canvas
  else l.draw_vertical canvas

/-- The border-stroking stage of Box.draw (the body of the
`if self.show_border` block). -/
def Box.draw_border (b : Box) (canvas : Canvas) : Canvas :=
  let g := b.geom
  let c := canvas.fill g.top_left g.top_right Ascii.H_LINE
  let c := c.fill g.bottom_left g.bottom_right Ascii.H_LINE
  let c := c.fill g.top_right g.bottom_right Ascii.V_LINE
  let c := c.fill g.top_left g.bottom_left Ascii.V_LINE
  let c := c.put_ch g.normalized_top_left Ascii.TL_CORNER
  let c := c.put_ch g.normalized_top_right Ascii.TR_CORNER
  let c := c.put_ch g.normalized_bottom_left Ascii.BL_CORNER
  c.put_ch g.normalized_bottom_right Ascii.BR_CORNER

/-- The interior-clearing stage of Box.draw: fill from top_left + (1, 1)
to bottom_right - (1, 1) with a blank (the source uses the raw, not the
normalized, corners here). -/
def Box.draw_fill (b : Box) (canvas : Canvas) : Canvas :=
  let g := b.geom
  canvas.fill (g.top_left.addSize ⟨1, 1⟩) (g.bottom_right.subSize ⟨1, 1⟩) ' '

/-- The text-writing stage of Box.draw: up to size.h - 1 lines, each
truncated to size.w - 1 columns, via Python slicing. -/
def Box.draw_text (b : Box) (canvas : Canvas) : Canvas :=
  let g := b.geom
  let text := if b.show_border = false ∧ pyStrip b.text = "" then "[Text]"
    else b.text
  let ls := pyTake (pySplitNl text) (b.size.h - 1)
  (ls.enum).foldl
    (fun c pr =>
      c.put_str (g.top_left.addSize ⟨1, (pr.1 : Int) + 1⟩)
        (pyStrTake pr.2 (b.size.w - 1)))
    canvas

/-- Box.draw: optional border, then interior clear, then text. -/
def Box.draw (b : Box) (canvas : Canvas) : Canvas :=
  let c := if b.show_border then b.draw_border canvas else canvas
  b.draw_text (b.draw_fill c)

/-- A stored shape record (one JSON object of the save file). Absent dict
keys are modelled as none; reading an absent key is a Python KeyError. -/
structure Record where
  rtype : String
  position : Option Point
  size : Option Size
  text : Option String
  show_border : Option Bool
  orientation : Option Int
  is_arrow : Option Bool
deriving DecidableEq

/-- Box.serialize: the base record (type, position, size) updated with
text and show_border; the Line-only keys are absent. -/
def Box.serialize (b : Box) : Record :=
  { rtype := "Box", position := some b.position, size := some b.size,
    text := some b.text, show_border := some b.show_border,
    orientation := none, is_arrow := none }

/-- Line.serialize: the base record updated with orientation (its IntEnum
value) and is_arrow; the Box-only keys are absent. -/
def Line.serialize (l : Line) : Record :=
  { rtype := "Line", position := some l.position, size := some l.size,
    text := none, show_border := none,
    orientation := some l.orientation, is_arrow := some l.is_arrow }

/-- A shape in the controller's collection: Box or Line. -/
inductive Obj where
  | box (b : Box)
  | line (l : Line)
deriving DecidableEq

/-- Obj.serialize: dynamic dispatch of DiagramObject.serialize. -/
def Obj.serialize : Obj → Record
  | .box b => b.serialize
  | .line l => l.serialize

/-- The position of a shape. -/
def Obj.position : Obj → Point
  | .box b => b.position
  | .line l => l.position

/-- The size of a shape. -/
def Obj.size : Obj → Size
  | .box b => b.size
  | .line l => l.size

/-- The DiagramObject view of a shape. -/
def Obj.geom : Obj → DiagramObject
  | .box b => b.geom
  | .line l => l.geom

/-- isinstance(obj, Line). -/
def Obj.isLine : Obj → Bool
  | .box _ => false
  | .line _ => true

/-- One step of Designer.deserialize: looks up the record's type name,
builds a fresh instance and runs its deserialize, which reads every
required field of the variant (a missing key raises KeyError, modelled as
none). The source resolves the name through globals(); the recognized
shape types of the file contract are Box and Line, and any other name
fails the load with an exception. -/
def decodeObj (r : Record) : Option Obj :=
  if r.rtype = "Box" then
    match r.position, r.size, r.text, r.show_border with
    | some p, some s, some t, some sb =>
      some (.box { position := p, size := s, text := t, show_border := sb })
    | _, _, _, _ => none
  else if r.rtype = "Line" then
    match r.position, r.size, r.orientation, r.is_arrow with
    | some p, some s, some o, some a =>
      some (.line { position := p, size := s, orientation := o, is_arrow := a })
    | _, _, _, _ => none
  else none

/-- The Designer state: the shape collection, the selection index (-1 is
the no-selection sentinel), the free cursor, the cursor mode, the sticky
flag, and the canvas dimensions used for cursor clamping. -/
structure DesignerState where
  objects : List Obj
  selected_object_index : Int
  cursor : Point
  cursor_mode : CursorMode
  sticky_mode : Bool
  maxx : Int
  maxy : Int
deriving DecidableEq

/-- Designer.__init__ state: no selection, cursor at the origin, HAND
mode, empty collection, sticky mode on. -/
def designerInit (maxx maxy : Int) : DesignerState :=
  { objects := [], selected_object_index := -1, cursor := ⟨0, 0⟩,
    cursor_mode := CursorMode.HAND, sticky_mode := true,
    maxx := maxx, maxy := maxy }

/-- Designer.selected_object: the shape at the selection index when that
index is in range, else None. -/
def DesignerState.selected_object (s : DesignerState) : Option Obj :=
  if 0 ≤ s.selected_object_index
      ∧ s.selected_object_index < (s.objects.length : Int) then
    s.objects.get? s.selected_object_index.toNat
  else none

/-- Is the start of the arrow connected to the box? The padded corners are
box.top_left - Size(1, 1) and box.bottom_right + Size(1, 1), tested with
Point.is_within exactly as the source does (no normalization). -/
def connStart (g : DiagramObject) (l : Line) : Bool :=
  Point.is_within l.geom.top_left (g.top_left.subSize ⟨1, 1⟩)
    (g.bottom_right.addSize ⟨1, 1⟩)

/-- Is the end of the arrow connected to the box? -/
def connEnd (g : DiagramObject) (l : Line) : Bool :=
  Point.is_within l.geom.bottom_right (g.top_left.subSize ⟨1, 1⟩)
    (g.bottom_right.addSize ⟨1, 1⟩)

/-- List map that passes the element index to the function. -/
def mapWithIdx {α : Type} (f : Nat → α → α) : Nat → List α → List α
  | _, [] => []
  | i, a :: as => f i a :: mapWithIdx f (i + 1) as

/-- The selected object's move: position += (dx, dy). -/
def moveSelectedUpdate (dx dy : Int) : Obj → Obj
  | .box b => .box { b with position := ⟨b.position.x + dx, b.position.y + dy⟩ }
  | .line l =>
    .line { l with position := ⟨l.position.x + dx, l.position.y + dy⟩ }

/-- The sticky update of one non-selected shape when the selected shape is
not a Line: a Line whose start is connected moves its position by the
delta and compensates its size; otherwise a Line whose end is connected
grows its size by the delta; Boxes and unconnected Lines are untouched
(Designer._get_connected_lines partitions with an elif, so a Line with
both ends connected only gets the start treatment). -/
def stickyLineUpdate (g : DiagramObject) (dx dy : Int) : Obj → Obj
  | .line l =>
    if connStart g l then
      .line { l with position := ⟨l.position.x + dx, l.position.y + dy⟩,
                     size := ⟨l.size.w - dx, l.size.h - dy⟩ }
    else if connEnd g l then
      .line { l with size := ⟨l.size.w + dx, l.size.h + dy⟩ }
    else .line l
  | .box b => .box b

/-- Designer._on_cursor_move: with a selection, move the selected shape by
the delta and, in sticky mode with a non-Line selection, apply the
connected-line updates computed against the pre-move geometry; with no
selection, move the free cursor clamped per axis to the screen. -/
def DesignerState.on_cursor_move (s : DesignerState) (dx dy : Int) :
    DesignerState :=
  match s.selected_object with
  | some sel =>
    let doSticky := s.sticky_mode && !sel.isLine
    let g := sel.geom
    let objs := mapWithIdx
      (fun j o =>
        if (j : Int) = s.selected_object_index then moveSelectedUpdate dx dy o
        else if doSticky = true then stickyLineUpdate g dx dy o
        else o)
      0 s.objects
    { s with objects := objs }
  | none =>
    let cx := if 0 ≤ s.cursor.x + dx ∧ s.cursor.x + dx < s.maxx then
      s.cursor.x + dx else s.cursor.x
    let cy := if 0 ≤ s.cursor.y + dy ∧ s.cursor.y + dy < s.maxy then
      s.cursor.y + dy else s.cursor.y
    { s with cursor := ⟨cx, cy⟩ }

/-- Designer._on_switch_object: cycle the selection with a virtual
no-selection slot; MOVE on a concrete index, HAND when landing on
no-selection. -/
def DesignerState.on_switch_object (s : DesignerState) (reverse : Bool) :
    DesignerState :=
  if reverse then
    let idx := if s.selected_object_index = -1 then (s.objects.length : Int) - 1
      else s.selected_object_index - 1
    { s with selected_object_index := idx,
             cursor_mode := if idx < 0 then CursorMode.HAND else CursorMode.MOVE }
  else
    let idx := s.selected_object_index + 1
    if (s.objects.length : Int) ≤ idx then
      { s with selected_object_index := -1, cursor_mode := CursorMode.HAND }
    else
      { s with selected_object_index := idx, cursor_mode := CursorMode.MOVE }

/-- Designer._get_new_obj_position: the placement point for a new shape
(Python floor division is Int.fdiv). -/
def DesignerState.get_new_obj_position (s : DesignerState)
    (new_obj_width : Int) : Point :=
  match s.selected_object with
  | some (.line l) =>
    if l.orientation = HORIZONTAL then
      l.geom.bottom_right.addSize ⟨-(Int.fdiv new_obj_width 2), 1⟩
    else l.geom.bottom_right.addSize ⟨1, Int.fdiv l.size.h 2⟩
  | some (.box b) => b.geom.top_right.addSize ⟨1, Int.fdiv b.size.h 2⟩
  | none => s.cursor

/-- Designer._add_box: append a default 14x2 Box and select it. -/
def DesignerState.add_box (s : DesignerState) : DesignerState :=
  let b : Box := { position := s.get_new_obj_position 14, size := ⟨14, 2⟩,
                   text := "", show_border := true }
  let objs := s.objects ++ [.box b]
  { s with objects := objs, selected_object_index := (objs.length : Int) - 1 }

/-- Designer._add_arrow: append a default 6x3 arrow Line and select it. -/
def DesignerState.add_arrow (s : DesignerState) : DesignerState :=
  let l : Line := { position := s.get_new_obj_position 0, size := ⟨6, 3⟩,
                    orientation := HORIZONTAL, is_arrow := true }
  let objs := s.objects ++ [.line l]
  { s with objects := objs, selected_object_index := (objs.length : Int) - 1 }

/-- Designer._add_line: append a default 6x3 plain Line and select it. -/
def DesignerState.add_line (s : DesignerState) : DesignerState :=
  let l : Line := { position := s.get_new_obj_position 0, size := ⟨6, 3⟩,
                    orientation := HORIZONTAL, is_arrow := false }
  let objs := s.objects ++ [.line l]
  { s with objects := objs, selected_object_index := (objs.length : Int) - 1 }

/-- Designer._delete_cur_object: pop the selected index when in range and
decrement the selection. -/
def DesignerState.delete_cur_object (s : DesignerState) : DesignerState :=
  if 0 ≤ s.selected_object_index
      ∧ s.selected_object_index < (s.objects.length : Int) then
    { s with objects := s.objects.eraseIdx s.selected_object_index.toNat,
             selected_object_index := s.selected_object_index - 1 }
  else s

/-- Designer._unselect_cur_object. -/
def DesignerState.unselect_cur_object (s : DesignerState) : DesignerState :=
  { s with selected_object_index := -1 }

/-- The selection scan of Designer._select_or_edit_object_under_cursor:
the source overwrites the index on every containing shape while iterating
forward, so the last containing shape in list order wins. -/
def scanSelect (cur : Point) : Nat → List Obj → Int → Int
  | _, [], acc => acc
  | i, o :: os, acc =>
    scanSelect cur (i + 1) os
      (if cur.is_within o.geom.top_left o.geom.bottom_right then (i : Int)
       else acc)

/-- Designer._select_or_edit_object_under_cursor: with no selection, scan
for a shape under the free cursor; with a Box selected, run its edit
session, whose committed buffer (user input, passed here as editInput)
replaces the text; a selected Line has no edit capability (no-op). -/
def DesignerState.select_or_edit (s : DesignerState) (editInput : String) :
    DesignerState :=
  match s.selected_object with
  | none =>
    let idx := scanSelect s.cursor 0 s.objects s.selected_object_index
    { s with selected_object_index := idx }
  | some (.box b) =>
    let objs := s.objects.set s.selected_object_index.toNat
      (.box { b with text := editInput })
    { s with objects := objs }
  | some (.line _) => s

/-- The loop body of Designer.deserialize after the state reset: decode
each record in turn, appending each freshly built shape; the first
failing record raises out of the loop (error flag true), leaving the
already-appended prefix in place. -/
def deserializeGo : List Record → DesignerState → DesignerState × Bool
  | [], s => (s, false)
  | r :: rest, s =>
    match decodeObj r with
    | some o => deserializeGo rest { s with objects := s.objects ++ [o] }
    | none => (s, true)

/-- Designer.deserialize: reset the selection, clear the collection, then
decode and append record by record. The returned flag records whether the
load raised (true) or completed (false). -/
def DesignerState.deserialize (s : DesignerState) (items : List Record) :
    DesignerState × Bool :=
  deserializeGo items
    { s with selected_object_index := -1, objects := [] }

/-- The controller commands named by the selection-invariant claim. The
selectUnderCursor payload is the text an edit session would commit; the
load payload is the decoded JSON array. -/
inductive Cmd where
  | switchFwd
  | switchBwd
  | addBox
  | addArrow
  | addLine
  | deleteSel
  | unselect
  | selectUnderCursor (editInput : String)
  | load (items : List Record)

/-- One controller command applied to the state. -/
def DesignerState.step (s : DesignerState) : Cmd → DesignerState
  | .switchFwd => s.on_switch_object false
  | .switchBwd => s.on_switch_object true
  | .addBox => s.add_box
  | .addArrow => s.add_arrow
  | .addLine => s.add_line
  | .deleteSel => s.delete_cur_object
  | .unselect => s.unselect_cur_object
  | .selectUnderCursor t => s.select_or_edit t
  | .load items => (s.deserialize items).1

/-- The selection invariant: the index is the no-selection sentinel -1 or
a valid index into the collection. -/
def SelInv (s : DesignerState) : Prop :=
  -1 ≤ s.selected_object_index
    ∧ s.selected_object_index < (s.objects.length : Int)

instance (s : DesignerState) : Decidable (SelInv s) := by
  unfold SelInv; infer_instance

/-- Membership in the inclusive integer range. -/
lemma mem_intRange {x a b : Int} : x ∈ intRange a b ↔ a ≤ x ∧ x ≤ b := by
  unfold intRange
  constructor
  · intro hx
    obtain ⟨i, hi, hx⟩ := List.mem_map.1 hx
    rw [List.mem_range] at hi
    omega
  · intro h
    exact List.mem_map.2 ⟨(x - a).toNat, List.mem_range.2 (by omega), by omega⟩

/-- put_ch does not change the screen width. -/
lemma put_ch_maxx (c : Canvas) (p : Point) (ch : Char) :
    (c.put_ch p ch).maxx = c.maxx := by
  unfold Canvas.put_ch; split <;> rfl

/-- put_ch does not change the screen height. -/
lemma put_ch_maxy (c : Canvas) (p : Point) (ch : Char) :
    (c.put_ch p ch).maxy = c.maxy := by
  unfold Canvas.put_ch; split <;> rfl

/-- put_ch does not change which points are in bounds. -/
lemma put_ch_inBnds (c : Canvas) (p q : Point) (ch : Char) :
    (c.put_ch p ch).inBnds q ↔ c.inBnds q := by
  unfold Canvas.inBnds
  rw [put_ch_maxx, put_ch_maxy]

/-- The pointwise effect of put_ch. -/
lemma put_ch_grid (c : Canvas) (p q : Point) (ch : Char) :
    (c.put_ch p ch).grid q = if c.inBnds p ∧ q = p then ch else c.grid q := by
  unfold Canvas.put_ch
  by_cases hb : c.inBnds p <;> by_cases hq : q = p <;> simp [hb, hq]

/-- putRow does not change the screen width. -/
lemma putRow_maxx (xs : List Int) :
    ∀ (c : Canvas) (y : Int) (ch : Char), (c.putRow y ch xs).maxx = c.maxx := by
  induction xs with
  | nil => intro c y ch; rfl
  | cons x xs ih =>
    intro c y ch
    show (Canvas.putRow (c.put_ch ⟨x, y⟩ ch) y ch xs).maxx = c.maxx
    rw [ih, put_ch_maxx]

/-- putRow does not change the screen height. -/
lemma putRow_maxy (xs : List Int) :
    ∀ (c : Canvas) (y : Int) (ch : Char), (c.putRow y ch xs).maxy = c.maxy := by
  induction xs with
  | nil => intro c y ch; rfl
  | cons x xs ih =>
    intro c y ch
    show (Canvas.putRow (c.put_ch ⟨x, y⟩ ch) y ch xs).maxy = c.maxy
    rw [ih, put_ch_maxy]

/-- putRow does not change which points are in bounds. -/
lemma putRow_inBnds (xs : List Int) (c : Canvas) (y : Int) (ch : Char)
    (q : Point) : (c.putRow y ch xs).inBnds q ↔ c.inBnds q := by
  unfold Canvas.inBnds
  rw [putRow_maxx, putRow_maxy]

/-- The pointwise effect of one row of fill. -/
lemma putRow_grid (xs : List Int) :
    ∀ (c : Canvas) (y : Int) (ch : Char) (q : Point),
      (c.putRow y ch xs).grid q =
        if q.y = y ∧ q.x ∈ xs ∧ c.inBnds q then ch else c.grid q := by
  induction xs with
  | nil =>
    intro c y ch q
    simp [Canvas.putRow]
  | cons x xs ih =>
    intro c y ch q
    obtain ⟨qx, qy⟩ := q
    show (Canvas.putRow (c.put_ch ⟨x, y⟩ ch) y ch xs).grid ⟨qx, qy⟩ = _
    rw [ih]
    simp only [put_ch_inBnds, put_ch_grid, List.mem_cons]
    by_cases h1 : qy = y <;> by_cases h2 : qx = x <;>
      by_cases h3 : qx ∈ xs <;> by_cases h4 : c.inBnds ⟨qx, qy⟩ <;>
      simp_all [Point.mk.injEq]

/-- The pointwise effect of the nested fill loops. -/
lemma putRect_grid (ys : List Int) :
    ∀ (c : Canvas) (ch : Char) (xs : List Int) (q : Point),
      (c.putRect ch xs ys).grid q =
        if q.y ∈ ys ∧ q.x ∈ xs ∧ c.inBnds q then ch else c.grid q := by
  induction ys with
  | nil =>
    intro c ch xs q
    simp [Canvas.putRect]
  | cons y ys ih =>
    intro c ch xs q
    show (Canvas.putRect (c.putRow y ch xs) ch xs ys).grid q = _
    rw [ih]
    simp only [putRow_inBnds, putRow_grid, List.mem_cons]
    by_cases h1 : q.y = y <;> by_cases h2 : q.y ∈ ys <;>
      by_cases h3 : q.x ∈ xs <;> by_cases h4 : c.inBnds q <;>
      simp_all

/-- putRect does not change the screen width. -/
lemma putRect_maxx (ys : List Int) :
    ∀ (c : Canvas) (ch : Char) (xs : List Int),
      (c.putRect ch xs ys).maxx = c.maxx := by
  induction ys with
  | nil => intro c ch xs; rfl
  | cons y ys ih =>
    intro c ch xs
    show (Canvas.putRect (c.putRow y ch xs) ch xs ys).maxx = c.maxx
    rw [ih, putRow_maxx]

/-- putRect does not change the screen height. -/
lemma putRect_maxy (ys : List Int) :
    ∀ (c : Canvas) (ch : Char) (xs : List Int),
      (c.putRect ch xs ys).maxy = c.maxy := by
  induction ys with
  | nil => intro c ch xs; rfl
  | cons y ys ih =>
    intro c ch xs
    show (Canvas.putRect (c.putRow y ch xs) ch xs ys).maxy = c.maxy
    rw [ih, putRow_maxy]

/-- The pointwise effect of Canvas.fill: the cell q receives ch exactly
when q lies in the (order-normalized, inclusive) rectangle and on the
screen; every other cell keeps its previous character. -/
lemma fill_grid (c : Canvas) (a b : Point) (ch : Char) (q : Point) :
    (c.fill a b ch).grid q =
      if min a.x b.x ≤ q.x ∧ q.x ≤ max a.x b.x
          ∧ min a.y b.y ≤ q.y ∧ q.y ≤ max a.y b.y ∧ c.inBnds q
      then ch else c.grid q := by
  unfold Canvas.fill
  rw [putRect_grid]
  simp only [mem_intRange]
  by_cases h : min a.y b.y ≤ q.y ∧ q.y ≤ max a.y b.y
      ∧ min a.x b.x ≤ q.x ∧ q.x ≤ max a.x b.x ∧ c.inBnds q
  · rw [if_pos (by tauto), if_pos (by tauto)]
  · rw [if_neg (by tauto), if_neg (by tauto)]

/-- fill does not change the screen width. -/
lemma fill_maxx (c : Canvas) (a b : Point) (ch : Char) :
    (c.fill a b ch).maxx = c.maxx := putRect_maxx _ _ _ _

/-- fill does not change the screen height. -/
lemma fill_maxy (c : Canvas) (a b : Point) (ch : Char) :
    (c.fill a b ch).maxy = c.maxy := putRect_maxy _ _ _ _

/-- fill does not change which points are in bounds. -/
lemma fill_inBnds (c : Canvas) (a b : Point) (ch : Char) (q : Point) :
    (c.fill a b ch).inBnds q ↔ c.inBnds q := by
  unfold Canvas.inBnds
  rw [fill_maxx, fill_maxy]

/-- A successful positional lookup implies the index is in range. -/
lemma get?_some_lt {α : Type} :
    ∀ (xs : List α) (i : Nat) (a : α), xs.get? i = some a → i < xs.length := by
  intro xs
  induction xs with
  | nil => intro i a h; cases h
  | cons x xs ih =>
    intro i a h
    cases i with
    | zero => simp
    | succ i =>
      have := ih i a h
      simp [Nat.succ_lt_succ this]

/-- Pointwise description of mapWithIdx. -/
lemma mapWithIdx_get? {α : Type} (f : Nat → α → α) :
    ∀ (xs : List α) (k j : Nat),
      (mapWithIdx f k xs).get? j = (xs.get? j).map (f (k + j)) := by
  intro xs
  induction xs with
  | nil => intro k j; rfl
  | cons x xs ih =>
    intro k j
    cases j with
    | zero => rfl
    | succ j =>
      show (mapWithIdx f (k + 1) xs).get? j = _
      have hk : k + 1 + j = k + (j + 1) := by omega
      rw [ih, hk]
      rfl

/-- Removing an element shortens the list by one. -/
lemma length_eraseIdx_lt {α : Type} :
    ∀ (xs : List α) (i : Nat), i < xs.length →
      (xs.eraseIdx i).length = xs.length - 1 := by
  intro xs
  induction xs with
  | nil => intro i h; cases h
  | cons x xs ih =>
    intro i h
    cases i with
    | zero => rfl
    | succ i =>
      have hi : i < xs.length := by simpa using h
      show (xs.eraseIdx i).length + 1 = xs.length + 1 - 1
      rw [ih i hi]
      omega

/-- The selection scan returns either its starting accumulator or an index
of a scanned element, so it stays inside [-1, n) whenever the accumulator
does and the scanned indices do. -/
lemma scanSelect_bound (cur : Point) :
    ∀ (os : List Obj) (k : Nat) (acc : Int) (n : Int),
      -1 ≤ acc → acc < n → (k : Int) + (os.length : Int) ≤ n →
      -1 ≤ scanSelect cur k os acc ∧ scanSelect cur k os acc < n := by
  intro os
  induction os with
  | nil =>
    intro k acc n h1 h2 h3
    exact ⟨h1, h2⟩
  | cons o os ih =>
    intro k acc n h1 h2 h3
    show -1 ≤ scanSelect cur (k + 1) os _ ∧ scanSelect cur (k + 1) os _ < n
    simp only [List.length_cons] at h3
    push_cast at h3
    have hlen : ((k + 1 : Nat) : Int) + (os.length : Int) ≤ n := by
      push_cast
      omega
    by_cases hc : cur.is_within o.geom.top_left o.geom.bottom_right
    · rw [if_pos hc]
      exact ih (k + 1) (k : Int) n (by omega) (by omega) hlen
    · rw [if_neg hc]
      exact ih (k + 1) acc n h1 h2 hlen

/-- The maximal decodable front of a record list: the shapes appended by
Designer.deserialize before the first failing record (the whole list when
every record decodes). -/
def decodeFront : List Record → List Obj
  | [] => []
  | r :: rest =>
    match decodeObj r with
    | some o => o :: decodeFront rest
    | none => []

/-- Does every record of the list decode? -/
def decodeAllOk : List Record → Bool
  | [] => true
  | r :: rest =>
    match decodeObj r with
    | some _ => decodeAllOk rest
    | none => false

/-- The deserialize loop: it never touches the selection index, it appends
exactly the decodable front, and it raises exactly when some record fails
to decode. -/
lemma deserializeGo_spec :
    ∀ (items : List Record) (s : DesignerState),
      (deserializeGo items s).1.selected_object_index = s.selected_object_index
      ∧ (deserializeGo items s).1.objects = s.objects ++ decodeFront items
      ∧ ((deserializeGo items s).2 = false ↔ decodeAllOk items = true) := by
  intro items
  induction items with
  | nil =>
    intro s
    refine ⟨rfl, by simp [deserializeGo, decodeFront], by simp [deserializeGo, decodeAllOk]⟩
  | cons r rest ih =>
    intro s
    cases hr : decodeObj r with
    | some o =>
      have h := ih { s with objects := s.objects ++ [o] }
      simp only [deserializeGo, hr]
      refine ⟨?_, ?_, ?_⟩
      · rw [h.1]
      · rw [h.2.1]
        simp [decodeFront, hr]
      · rw [h.2.2]
        simp [decodeAllOk, hr]
    | none =>
      simp [deserializeGo, hr, decodeFront, decodeAllOk]

/-- Claim C2, counterexample. The claim asserts (P + S) - P == S for every
Point P and Size S. At P = (0, 0), S = (1, 1) the source's Point - Point
(which returns Size(other.x - self.x, other.y - self.y), the OTHER operand
minus SELF) yields Size(-1, -1), not S. -/
theorem claim2_counterexample :
    Point.subPoint (Point.addSize ⟨0, 0⟩ ⟨1, 1⟩) ⟨0, 0⟩ ≠ (⟨1, 1⟩ : Size) := by
  decide

/-- Claim C2, amended: for every Point P and Size S, (P + S) - S == P
holds, but (P + S) - P equals Size(-S.w, -S.h) (the negation of S),
because Point minus Point returns the right operand minus the left. -/
theorem claim2_amended (p : Point) (s : Size) :
    (p.addSize s).subSize s = p
      ∧ (p.addSize s).subPoint p = (⟨-s.w, -s.h⟩ : Size) := by
  obtain ⟨x, y⟩ := p
  obtain ⟨w, h⟩ := s
  refine ⟨?_, ?_⟩ <;>
    simp [Point.addSize, Point.subSize, Point.subPoint, Point.mk.injEq,
      Size.mk.injEq]

/-- Claim C3, counterexample. The claim asserts is_within(c1, c2) is true
exactly when the point is inside the min/max-normalized rectangle, and in
particular is order-independent in the corners. At p = (0, 0) with corners
c1 = (1, 1), c2 = (0, 0): the min/max condition holds (min 1 0 = 0 ≤ 0 ≤
1 = max 1 0 on both axes) and the same call with the corners swapped
returns true, yet is_within(p, c1, c2) returns false: the source compares
against the corners as given, without reordering. -/
theorem claim3_counterexample :
    Point.is_within ⟨0, 0⟩ ⟨1, 1⟩ ⟨0, 0⟩ = false
      ∧ Point.is_within ⟨0, 0⟩ ⟨0, 0⟩ ⟨1, 1⟩ = true
      ∧ (min (1 : Int) 0 ≤ 0 ∧ (0 : Int) ≤ max 1 0
          ∧ min (1 : Int) 0 ≤ 0 ∧ (0 : Int) ≤ max 1 0) := by
  decide

/-- Claim C3, amended: p.is_within(c1, c2) returns true exactly when
c1.x <= p.x <= c2.x and c1.y <= p.y <= c2.y, taking the two corners as
given; it does not reorder them, so the result is not invariant under
swapping the corners on an axis. -/
theorem claim3_amended (p c1 c2 : Point) :
    p.is_within c1 c2 = true
      ↔ (c1.x ≤ p.x ∧ p.x ≤ c2.x ∧ c1.y ≤ p.y ∧ p.y ≤ c2.y) := by
  simp [Point.is_within, Bool.and_eq_true, decide_eq_true_eq]
  tauto

/-- Claim C7: serializing any shape (Box or Line, any field values) and
deserializing the record into a fresh shape of the same variant
reproduces the original's position, size, and variant-specific fields. -/
theorem claim7_roundtrip (o : Obj) : decodeObj o.serialize = some o := by
  cases o <;> rfl

/-- Claim C8: for every DiagramObject, whatever the signs of the size
components, the normalized corners are ordered:
normalized_top_left.x <= normalized_bottom_right.x and likewise for y. -/
theorem claim8_normalized_ordered (o : DiagramObject) :
    o.normalized_top_left.x ≤ o.normalized_bottom_right.x
      ∧ o.normalized_top_left.y ≤ o.normalized_bottom_right.y := by
  obtain ⟨⟨px, py⟩, ⟨w, h⟩⟩ := o
  simp only [DiagramObject.normalized_top_left,
    DiagramObject.normalized_bottom_right, DiagramObject.normalized_position,
    DiagramObject.normalized_size, Point.addSize, intAbs]
  constructor <;> split_ifs <;> simp <;> omega

/-- A record whose type tag names no shape variant: decoding it raises. -/
def badRecC1 : Record :=
  { rtype := "Circle", position := some ⟨0, 0⟩, size := some ⟨1, 1⟩,
    text := none, show_border := none, orientation := none, is_arrow := none }

/-- A Box for the pre-load state of the C1 counterexample. -/
def boxC1 : Box :=
  { position := ⟨0, 0⟩, size := ⟨6, 3⟩, text := "", show_border := true }

/-- A controller state holding one Box, with that Box selected. -/
def stateC1 : DesignerState :=
  { objects := [.box boxC1], selected_object_index := 0, cursor := ⟨0, 0⟩,
    cursor_mode := CursorMode.MOVE, sticky_mode := true,
    maxx := 80, maxy := 24 }

/-- Claim C1, counterexample. The claim asserts that when decoding fails
on any record, the shape collection and the selection are left exactly as
they were before the load. Loading the single unrecognized record above
into a state holding one selected Box fails, yet afterwards the
collection is empty and the selection reset: Designer.deserialize clears
both before decoding the first record. -/
theorem claim1_counterexample :
    (stateC1.deserialize [badRecC1]).2 = true
      ∧ (stateC1.deserialize [badRecC1]).1.objects.length = 0
      ∧ stateC1.objects.length = 1
      ∧ (stateC1.deserialize [badRecC1]).1.selected_object_index = -1
      ∧ stateC1.selected_object_index = 0 :=
  ⟨rfl, rfl, rfl, rfl, rfl⟩

/-- Claim C1, amended: loading is not transactional. Designer.deserialize
first resets the selection to none and clears the collection, then
decodes and appends record by record; after the load (failed or not) the
selection is none and the collection holds exactly the decodable front of
the input (every record before the first failing one; the whole decoded
list when the load succeeds, which is also exactly when every record
decodes). -/
theorem claim1_amended (s : DesignerState) (items : List Record) :
    (s.deserialize items).1.selected_object_index = -1
      ∧ (s.deserialize items).1.objects = decodeFront items
      ∧ ((s.deserialize items).2 = false ↔ decodeAllOk items = true) := by
  unfold DesignerState.deserialize
  have h := deserializeGo_spec items
    { s with selected_object_index := -1, objects := [] }
  refine ⟨by rw [h.1], by rw [h.2.1]; simp, h.2.2⟩

/-- Claim C9: every listed controller command (cycle forward/backward,
add box/arrow/line, delete selected, unselect, select-under-cursor, load)
preserves the invariant -1 <= selected_object_index < objects.length, and
the initial state satisfies it, so it holds in every reachable state. -/
theorem claim9_selection_invariant :
    (∀ (mx my : Int), SelInv (designerInit mx my))
      ∧ ∀ (c : Cmd) (s : DesignerState), SelInv s → SelInv (s.step c) := by
  constructor
  · intro mx my
    simp [designerInit, SelInv]
  · intro c s h
    obtain ⟨h1, h2⟩ := h
    cases c with
    | switchFwd =>
      simp only [DesignerState.step, DesignerState.on_switch_object,
        Bool.false_eq_true, if_false]
      split_ifs <;> constructor <;> simp <;> omega
    | switchBwd =>
      simp only [DesignerState.step, DesignerState.on_switch_object, if_true]
      by_cases hneg : s.selected_object_index = -1 <;>
        simp only [hneg, if_pos, if_neg, SelInv] <;> simp <;> omega
    | addBox =>
      simp only [DesignerState.step, DesignerState.add_box, SelInv]
      simp
      omega
    | addArrow =>
      simp only [DesignerState.step, DesignerState.add_arrow, SelInv]
      simp
      omega
    | addLine =>
      simp only [DesignerState.step, DesignerState.add_line, SelInv]
      simp
      omega
    | deleteSel =>
      simp only [DesignerState.step, DesignerState.delete_cur_object]
      split_ifs with hrange
      · have htn : s.selected_object_index.toNat < s.objects.length := by
          omega
        constructor
        · simp
          omega
        · simp [length_eraseIdx_lt s.objects _ htn]
          omega
      · exact ⟨h1, h2⟩
    | unselect =>
      simp only [DesignerState.step, DesignerState.unselect_cur_object, SelInv]
      simp
      omega
    | selectUnderCursor t =>
      simp only [DesignerState.step, DesignerState.select_or_edit]
      cases hsel : s.selected_object with
      | none =>
        have hb := scanSelect_bound s.cursor s.objects 0 s.selected_object_index
          (s.objects.length : Int) h1 h2 (by simp)
        exact ⟨hb.1, hb.2⟩
      | some o =>
        cases o with
        | box b =>
          constructor <;> simp [List.length_set] <;> omega
        | line l =>
          exact ⟨h1, h2⟩
    | load items =>
      have hgo := deserializeGo_spec items
        { s with selected_object_index := -1, objects := [] }
      have hidx := hgo.1
      simp at hidx
      simp only [DesignerState.step, DesignerState.deserialize, SelInv]
      rw [hidx]
      exact ⟨by omega, by omega⟩

/-- Claim C9, witness: the invariant holds of the initial 80x24 state and
is preserved by an add-box command applied to it. -/
theorem claim9_witness : SelInv ((designerInit 80 24).step Cmd.addBox) :=
  claim9_selection_invariant.2 Cmd.addBox (designerInit 80 24) (by decide)

/-- When the selection index is a valid position i holding shape o, the
selected_object property returns o. -/
lemma selected_object_eq (s : DesignerState) (i : Nat) (o : Obj)
    (hsel : s.selected_object_index = (i : Int))
    (hi : s.objects.get? i = some o) :
    s.selected_object = some o := by
  have hlen := get?_some_lt s.objects i o hi
  unfold DesignerState.selected_object
  rw [hsel, if_pos (by constructor <;> omega)]
  simpa using hi

/-- Claim C4: in a state where a Box at index i is selected and sticky
mode is on, a move by (dx, dy) shifts the position of every Line whose
start corner (top_left) lies within the Box's padded bounding box
(top_left - (1,1) .. bottom_right + (1,1), tested by the source's
is_within) by exactly (dx, dy), while the Line's end corner
(bottom_right = position + size) is unchanged, the size absorbing the
compensating change. -/
theorem claim4_sticky_box_move (s : DesignerState) (i j : Nat) (b : Box)
    (l : Line) (dx dy : Int)
    (hsel : s.selected_object_index = (i : Int))
    (hi : s.objects.get? i = some (.box b))
    (hsticky : s.sticky_mode = true)
    (hj : s.objects.get? j = some (.line l))
    (hconn : connStart (Obj.geom (.box b)) l = true) :
    ∃ l2 : Line, (s.on_cursor_move dx dy).objects.get? j = some (.line l2)
      ∧ l2.position = ⟨l.position.x + dx, l.position.y + dy⟩
      ∧ l2.geom.bottom_right = l.geom.bottom_right := by
  have hobj := selected_object_eq s i (.box b) hsel hi
  have hij : j ≠ i := by
    intro hh
    subst hh
    rw [hi] at hj
    cases hj
  have hijZ : (j : Int) ≠ (i : Int) := by
    exact_mod_cast hij
  unfold DesignerState.on_cursor_move
  rw [hobj]
  rw [mapWithIdx_get? _ s.objects 0 j, hj]
  simp only [Option.map_some', Nat.zero_add, hsel, hsticky, Obj.isLine,
    Bool.not_false, Bool.true_and, if_neg hijZ, stickyLineUpdate, hconn,
    if_true]
  refine ⟨_, rfl, rfl, ?_⟩
  simp only [Line.geom, DiagramObject.bottom_right, Point.addSize,
    Point.mk.injEq]
  constructor <;> ring

/-- An arrow Line whose start (7, 1) lies within the padded bounding box
of boxC1 (corners (-1, -1) and (7, 4)). -/
def lineC4 : Line :=
  { position := ⟨7, 1⟩, size := ⟨3, 0⟩, orientation := HORIZONTAL,
    is_arrow := true }

/-- A state holding boxC1 (selected) and lineC4, sticky mode on. -/
def stateC4 : DesignerState :=
  { objects := [.box boxC1, .line lineC4], selected_object_index := 0,
    cursor := ⟨0, 0⟩, cursor_mode := CursorMode.MOVE, sticky_mode := true,
    maxx := 80, maxy := 24 }

/-- The C4 state with the Line (index 1) selected instead. -/
def stateC10 : DesignerState :=
  { objects := [.box boxC1, .line lineC4], selected_object_index := 1,
    cursor := ⟨0, 0⟩, cursor_mode := CursorMode.MOVE, sticky_mode := true,
    maxx := 80, maxy := 24 }

/-- Claim C4, witness: a concrete state with a selected 6x3 Box at the
origin and an arrow Line starting one cell right of the Box's right edge;
a move right by one carries the Line's start along and keeps its end. -/
theorem claim4_witness :
    ∃ l2 : Line, ((stateC4.on_cursor_move 1 0).objects.get? 1
        = some (.line l2))
      ∧ l2.position = ⟨7 + 1, 1 + 0⟩
      ∧ l2.geom.bottom_right = (lineC4.geom).bottom_right :=
  claim4_sticky_box_move stateC4 0 1 boxC1 lineC4 1 0 rfl rfl rfl rfl
    (by decide)

/-- Claim C10: in a state where a Line at index i is selected and sticky
mode is on, a move by (dx, dy) changes only that Line's position (its
size is untouched) and leaves every other shape in the collection exactly
as it was: connection-following is skipped whenever the selected shape is
a Line. -/
theorem claim10_line_move_frame (s : DesignerState) (i : Nat) (l : Line)
    (dx dy : Int)
    (hsel : s.selected_object_index = (i : Int))
    (hi : s.objects.get? i = some (.line l))
    (hsticky : s.sticky_mode = true) :
    (∃ l2 : Line, (s.on_cursor_move dx dy).objects.get? i = some (.line l2)
      ∧ l2.position = ⟨l.position.x + dx, l.position.y + dy⟩
      ∧ l2.size = l.size)
    ∧ ∀ j : Nat, j ≠ i →
        (s.on_cursor_move dx dy).objects.get? j = s.objects.get? j := by
  have hobj := selected_object_eq s i (.line l) hsel hi
  unfold DesignerState.on_cursor_move
  rw [hobj]
  constructor
  · rw [mapWithIdx_get? _ s.objects 0 i, hi]
    simp only [Option.map_some', Nat.zero_add, hsel, if_pos,
      moveSelectedUpdate]
    exact ⟨_, rfl, rfl, rfl⟩
  · intro j hij
    have hijZ : (j : Int) ≠ (i : Int) := by
      exact_mod_cast hij
    rw [mapWithIdx_get? _ s.objects 0 j]
    cases hgj : s.objects.get? j with
    | none => simp
    | some o =>
      simp only [Option.map_some', Nat.zero_add, hsel, if_neg hijZ,
        Obj.isLine, Bool.not_true, Bool.and_false]
      simp

/-- Claim C10, witness: with the arrow Line of the C4 state selected
instead, a move right by one shifts only that Line; the Box at index 0 is
untouched. -/
theorem claim10_witness :
    (∃ l2 : Line, ((stateC10.on_cursor_move 1 0).objects.get? 1
        = some (.line l2))
      ∧ l2.position = ⟨7 + 1, 1 + 0⟩
      ∧ l2.size = lineC4.size)
    ∧ ∀ j : Nat, j ≠ 1 →
        (stateC10.on_cursor_move 1 0).objects.get? j
          = stateC10.objects.get? j :=
  claim10_line_move_frame stateC10 1 lineC4 1 0 rfl rfl rfl

/-- Modelled from the spec: the claim's arrowhead rule. The direction is
the atan2 angle of the vector from the final leg's end back to its start
(start minus end, taken conventionally), with the angle arguments in the
same order the source passes them (x-component first, then y-component)
and the 0 / 90 / 180 / -90 buckets mapped through the same glyph table as
the code. -/
def specArrowCh (start stop : Point) : Option Char :=
  Line.degree_to_ch (atan2deg (start.x - stop.x) (start.y - stop.y))

/-- A horizontal rightward arrow Line from (0, 0) with size (5, 0). -/
def lineC5 : Line :=
  { position := ⟨0, 0⟩, size := ⟨5, 0⟩, orientation := HORIZONTAL,
    is_arrow := true }

/-- A blank 10x10 canvas. -/
def canvasC5 : Canvas := ⟨10, 10, fun _ => ' '⟩

/-- Claim C5, counterexample. Drawing lineC5 strokes one final leg from
(0, 0) to (5, 0) and writes the right-pointing arrow at the endpoint,
because delta = start - end under the source's reversed Point subtraction
is the end-minus-start vector (5, 0), whose bucket is 90. The claim's
rule (the vector from the end back to the start, i.e. (-5, 0)) lands in
the -90 bucket and predicts the left-pointing arrow instead. -/
theorem claim5_counterexample :
    ((lineC5.draw canvasC5).map (fun c2 => c2.grid ⟨5, 0⟩))
        = some Ascii.ARROW_RIGHT
      ∧ specArrowCh ⟨0, 0⟩ ⟨5, 0⟩ = some Ascii.ARROW_LEFT
      ∧ Ascii.ARROW_RIGHT ≠ Ascii.ARROW_LEFT := by
  refine ⟨rfl, rfl, by decide⟩

/-- Claim C5, amended: for every arrow Line, on every non-degenerate
axis-aligned final leg whose endpoint is on screen, the glyph written at
the leg's endpoint is determined by the atan2 buckets of the vector from
the leg's START to its end (the source's reversed Point subtraction makes
delta equal end minus start), 0 / 90 / 180 / -90 mapping to ⏷ / ⏵ / ⏶ /
⏴: the arrowhead points in the direction of travel. -/
theorem claim5_amended (l : Line) (c : Canvas) (start stop : Point)
    (harrow : l.is_arrow = true)
    (haxis : (start.x = stop.x ∧ start.y ≠ stop.y)
      ∨ (start.y = stop.y ∧ start.x ≠ stop.x))
    (hb : c.inBnds stop) :
    (l.draw_line c start stop).map (fun c2 => c2.grid stop)
      = some (if start.y = stop.y then
            (if start.x < stop.x then Ascii.ARROW_RIGHT else Ascii.ARROW_LEFT)
          else
            (if start.y < stop.y then Ascii.ARROW_DOWN else Ascii.ARROW_UP)) := by
  have hne : ¬ (start.x ≠ stop.x ∧ start.y ≠ stop.y) := by tauto
  have hne2 : ¬ (start = stop) := by
    intro hh
    subst hh
    rcases haxis with ⟨-, h⟩ | ⟨-, h⟩ <;> exact h rfl
  unfold Line.draw_line
  rw [if_neg hne, if_neg hne2]
  simp only [harrow, if_true, Point.subPoint]
  rcases haxis with ⟨hx, hy⟩ | ⟨hy, hx⟩
  · have hw : stop.x - start.x = 0 := by omega
    by_cases hlt : start.y < stop.y
    · have h0 : atan2deg (stop.x - start.x) (stop.y - start.y) = 0 := by
        unfold atan2deg
        rw [if_pos hw, if_pos (by omega)]
      rw [h0, show Line.degree_to_ch 0 = some Ascii.ARROW_DOWN from rfl]
      simp only [Option.map_some']
      rw [put_ch_grid, if_pos ⟨(fill_inBnds c start stop _ stop).mpr hb, rfl⟩]
      rw [if_neg hy, if_pos hlt]
    · have h0 : atan2deg (stop.x - start.x) (stop.y - start.y) = 180 := by
        unfold atan2deg
        rw [if_pos hw, if_neg (by omega)]
      rw [h0, show Line.degree_to_ch 180 = some Ascii.ARROW_UP from rfl]
      simp only [Option.map_some']
      rw [put_ch_grid, if_pos ⟨(fill_inBnds c start stop _ stop).mpr hb, rfl⟩]
      rw [if_neg hy, if_neg hlt]
  · have hh0 : stop.y - start.y = 0 := by omega
    by_cases hlt : start.x < stop.x
    · have h0 : atan2deg (stop.x - start.x) (stop.y - start.y) = 90 := by
        unfold atan2deg
        rw [if_neg (by omega), if_pos hh0, if_pos (by omega)]
      rw [h0, show Line.degree_to_ch 90 = some Ascii.ARROW_RIGHT from rfl]
      simp only [Option.map_some']
      rw [put_ch_grid, if_pos ⟨(fill_inBnds c start stop _ stop).mpr hb, rfl⟩]
      rw [if_pos hy, if_pos hlt]
    · have h0 : atan2deg (stop.x - start.x) (stop.y - start.y) = -90 := by
        unfold atan2deg
        rw [if_neg (by omega), if_pos hh0, if_neg (by omega)]
      rw [h0, show Line.degree_to_ch (-90) = some Ascii.ARROW_LEFT from rfl]
      simp only [Option.map_some']
      rw [put_ch_grid, if_pos ⟨(fill_inBnds c start stop _ stop).mpr hb, rfl⟩]
      rw [if_pos hy, if_neg hlt]

/-- Claim C5, witness: the amended rule applied to the concrete rightward
leg of lineC5 yields the right-pointing arrow at (5, 0). -/
theorem claim5_witness :
    ((lineC5.draw_line canvasC5 ⟨0, 0⟩ ⟨5, 0⟩).map (fun c2 => c2.grid ⟨5, 0⟩))
      = some Ascii.ARROW_RIGHT :=
  claim5_amended lineC5 canvasC5 ⟨0, 0⟩ ⟨5, 0⟩ rfl (by decide) (by decide)

/-- A Box with both size components negative, drawn with a border. -/
def boxC6 : Box :=
  { position := ⟨4, 4⟩, size := ⟨-3, -3⟩, text := "", show_border := true }

/-- A 10x10 canvas holding a dot in every cell. -/
def canvasC6 : Canvas := ⟨10, 10, fun _ => '.'⟩

set_option maxRecDepth 100000 in
/-- Claim C6, counterexample. The claim asserts that for any sign of the
size components the draw clears exactly the cells strictly inside the
normalized rectangle and leaves its border cells intact. For boxC6 the
normalized rectangle has corners (1, 1) and (4, 4), so (1, 1) is a border
cell (it receives the top-left corner glyph) and lies outside the claimed
interior (2..3 on both axes); yet after the draw it holds a blank: the
interior fill runs from top_left + (1, 1) = (5, 5) to
bottom_right - (1, 1) = (0, 0), which the canvas fill reorders to the
whole rectangle (0, 0)..(5, 5), erasing the border. -/
theorem claim6_counterexample :
    boxC6.geom.normalized_top_left = ⟨1, 1⟩
      ∧ boxC6.geom.normalized_bottom_right = ⟨4, 4⟩
      ∧ boxC6.show_border = true
      ∧ canvasC6.grid ⟨1, 1⟩ = '.'
      ∧ (boxC6.draw canvasC6).grid ⟨1, 1⟩ = ' '
      ∧ (' ' : Char) ≠ Ascii.TL_CORNER := by
  exact ⟨rfl, rfl, rfl, rfl, by decide, by decide⟩

/-- Claim C6, amended: when both size components are at least 2 (in
particular for the default box sizes the editor creates), the clearing
stage of Box.draw blanks exactly the cells of the normalized interior,
from normalized top-left + (1, 1) to normalized bottom-right - (1, 1)
inclusive, and leaves every other on-screen cell (the border cells of the
normalized rectangle included) unchanged. For smaller or negative sizes
the cleared rectangle is the order-normalized span of top_left + (1, 1)
and bottom_right - (1, 1), which can cover border cells. -/
theorem claim6_amended (b : Box) (c : Canvas) (q : Point)
    (hw : 2 ≤ b.size.w) (hh : 2 ≤ b.size.h) (hq : c.inBnds q) :
    (b.draw_fill c).grid q =
      if b.geom.normalized_top_left.x + 1 ≤ q.x
          ∧ q.x ≤ b.geom.normalized_bottom_right.x - 1
          ∧ b.geom.normalized_top_left.y + 1 ≤ q.y
          ∧ q.y ≤ b.geom.normalized_bottom_right.y - 1
      then ' ' else c.grid q := by
  unfold Box.draw_fill
  rw [fill_grid]
  obtain ⟨⟨px, py⟩, ⟨w, h⟩, t, sb⟩ := b
  simp only [Box.geom, DiagramObject.top_left, DiagramObject.bottom_right,
    DiagramObject.normalized_top_left, DiagramObject.normalized_bottom_right,
    DiagramObject.normalized_position, DiagramObject.normalized_size, intAbs,
    Point.addSize, Point.subSize, Canvas.inBnds] at *
  split_ifs <;> first | rfl | omega

/-- Claim C6, witness: the amended statement applied to a 6x3 Box at the
origin and the interior cell (2, 1), which ends blank. -/
theorem claim6_witness :
    (boxC1.draw_fill canvasC6).grid ⟨2, 1⟩ = ' ' :=
  claim6_amended boxC1 canvasC6 ⟨2, 1⟩ (by decide) (by decide) (by decide)

end TAD
